import Mathlib

/-!
Verification of the module-loading and interactive-execution front end of
the RustPython slice (vm/src/import.rs and src/main.rs), as a shallow
embedding.  The compiler and the execution engine are external
collaborators: module source text is modelled as an already-parsed body (a
list of statements) or a malformed marker, and the interactive compiler is
an abstract function parameter.  Machine state is passed explicitly; the
global `sys.modules` dict, the frozen table, the builtin factory table,
`sys.path` and the filesystem are fields of an explicit state record.
Recursion of the loader (a module body can trigger further loads) is
bounded by an explicit fuel parameter that models the call stack; fuel
exhaustion is a distinguished error that never occurs at sufficient fuel.
-/

deriving instance DecidableEq for Except

namespace RPy

/-- Models Rust's str::starts_with on the list-of-chars view of strings. -/
def strStartsWith (s p : String) : Bool :=
  p.data.isPrefixOf s.data

/-- Models Rust's str::trim_end: drop trailing whitespace characters. -/
def trimEnd (s : String) : String :=
  String.mk ((s.data.reverse.dropWhile Char.isWhitespace).reverse)

/-- Models name.replace with a dot char pattern and a slash replacement, as in find_source. -/
def dotsToSlashes (name : String) : String :=
  String.mk (name.data.map fun ch => if ch = '.' then '/' else ch)

/-- Models PathBuf::push of a relative component: join with a separator. -/
def pjoin (p s : String) : String := p ++ "/" ++ s

/-- Association-list lookup (models dict get_item / HashMap get by string key). -/
def alGet {β : Type} (k : String) : List (String × β) → Option β
  | [] => none
  | (k', v) :: rest => if k' = k then some v else alGet k rest

/-- Association-list overwrite-or-append (models dict set_item by string key). -/
def alSet {β : Type} (k : String) (v : β) : List (String × β) → List (String × β)
  | [] => [(k, v)]
  | (k', v') :: rest => if k' = k then (k, v) :: rest else (k', v') :: alSet k v rest

/-- A statement of a module body, the part of the object language the loader
can observe: set an attribute in the module's namespace, trigger a nested
load, or raise a runtime exception. -/
inductive Stmt where
  | setAttr (a v : String)
  | importStmt (m : String)
  | raiseStmt (msg : String)
deriving DecidableEq

/-- Source text as seen through the external compiler: either it compiles to
a body or it is malformed (compile fails with the given message). -/
inductive Source where
  | src (body : List Stmt)
  | malformed (msg : String)
deriving DecidableEq

/-- Compile mode, as in compile::Mode. -/
inductive Mode where
  | exec
  | single
deriving DecidableEq

/-- The external compile service consumed by import_file (compile::compile):
returns the compiled body or a compile error message. -/
def compileSrc (content : Source) (_mode : Mode) (_path : String) : Except String (List Stmt) :=
  match content with
  | .src body => .ok body
  | .malformed msg => .error msg

/-- A module object: identity (allocation id), name and its namespace dict.
The cache holds the live namespace; a returned Module record snapshots the
namespace as it was when the record was built. -/
structure Module where
  id : Nat
  name : String
  attrs : List (String × String)
deriving DecidableEq

/-- The error taxonomy surfaced by the loader, plus the fuel marker. -/
inductive PyErr where
  | moduleNotFound (msg : String)
  | importError (msg : String)
  | syntaxError (msg : String)
  | runtime (msg : String)
  | outOfFuel
deriving DecidableEq

/-- The loader-visible machine state: sys.modules cache, frozen source
table, builtin factory table (name to the attrs the factory builds),
sys.path, the filesystem (existing readable files with contents, plus paths
that exist but fail to read), an allocation counter, and two instrumentation
logs: execLog records each start of a module-body execution, importLog
records, for each import statement executed inside a body, the attrs of the
imported module as observed at that moment. -/
structure VMSt where
  modules : List (String × Module)
  frozen : List (String × Source)
  stdlibInits : List (String × List (String × String))
  sysPath : List String
  fs : List (String × Source)
  fsUnreadable : List String
  nextId : Nat
  execLog : List String
  importLog : List (String × List (String × String))
deriving DecidableEq

/-- Models Path::exists over the modelled filesystem. -/
def existsFile (st : VMSt) (p : String) : Bool :=
  (alGet p st.fs).isSome || st.fsUnreadable.contains p

/-- Models util::read_file: contents when readable, an IO error otherwise. -/
def read_file (st : VMSt) (p : String) : Except String Source :=
  if st.fsUnreadable.contains p then .error ("could not read " ++ p)
  else
    match alGet p st.fs with
    | some s => .ok s
    | none => .error ("could not read " ++ p)

/-- find_source from import.rs: candidate directories are the current path
followed by the sys.path entries; for each directory, in order, try the
dotted-to-slash name with the suffixes ".py" then "/__init__.py"; the first
candidate that exists wins, else a no-module-named error naming the module. -/
def find_source (st : VMSt) (currentPath : String) (name : String) : Except String String :=
  let paths := currentPath :: st.sysPath
  let relName := dotsToSlashes name
  let suffixes := [".py", "/__init__.py"]
  let filePaths := paths.foldl
    (fun acc path => acc ++ suffixes.map (fun s => pjoin path (relName ++ s))) []
  match filePaths.find? (fun p => existsFile st p) with
  | some path => .ok path
  | none => .error ("No module named '" ++ name ++ "'")

/-- import_builtin from import.rs: invoke the factory, register the result
in sys.modules, return it; error when the name is not in the table (the
message keeps the source's spelling). -/
def import_builtin (st : VMSt) (moduleName : String) : VMSt × Except PyErr Module :=
  match alGet moduleName st.stdlibInits with
  | some attrs =>
    let module : Module := ⟨st.nextId, moduleName, attrs⟩
    ({ st with nextId := st.nextId + 1,
               modules := alSet moduleName module st.modules },
     .ok module)
  | none => (st, .error (.importError ("Cannot import bultin module " ++ moduleName)))

/-- Update, in the cache, the attrs of the module whose namespace is the
running body's scope (the scope dict and the module dict are one object). -/
def updateAttrs (scopeName a v : String) (modules : List (String × Module)) :
    List (String × Module) :=
  modules.map fun kv =>
    (kv.1, if kv.1 = scopeName then ⟨kv.2.id, kv.2.name, alSet a v kv.2.attrs⟩ else kv.2)

/-- Placeholder result for the run-code task, which returns no module. -/
def dummyModule : Module := ⟨0, "", []⟩

/-- The mutually recursive loader entry points, folded into one fuel-indexed
interpreter so that every recursive call is structural on the fuel. -/
inductive Task where
  | importMod (currentPath moduleName : String)
  | importFroz (moduleName : String)
  | importF (moduleName filePath : String) (content : Source)
  | runCode (scopeName : String) (code : List Stmt)
deriving DecidableEq

/-- One interpreter for the four loader entry points of import.rs.
The importMod arm is import_module: cache, then frozen, then builtin, then
filesystem search plus read.  The importFroz arm is import_frozen: look the
name up in the frozen table and load it under the synthetic path label.
The importF arm is import_file: compile in Exec mode, build the fresh
namespace with name and conditional file attributes, register the new module
in the cache, and only then run the body.  The runCode arm is the execution
engine run_code_obj restricted to the observable statement forms; a nested
load goes back through importMod. -/
def interp : Nat → VMSt → Task → VMSt × Except PyErr Module
  | 0, st, _ => (st, .error .outOfFuel)
  | f + 1, st, .importMod currentPath moduleName =>
    (match alGet moduleName st.modules with
     | some module => (st, .ok module)
     | none =>
       if (alGet moduleName st.frozen).isSome then
         interp f st (.importFroz moduleName)
       else if (alGet moduleName st.stdlibInits).isSome then
         import_builtin st moduleName
       else
         match find_source st currentPath moduleName with
         | .error e => (st, .error (.moduleNotFound e))
         | .ok filePath =>
           match read_file st filePath with
           | .error e => (st, .error (.importError e))
           | .ok source => interp f st (.importF moduleName filePath source))
  | f + 1, st, .importFroz moduleName =>
    (match alGet moduleName st.frozen with
     | some frozenSrc =>
       interp f st (.importF moduleName ("frozen " ++ moduleName) frozenSrc)
     | none => (st, .error (.importError ("Cannot import frozen module " ++ moduleName))))
  | f + 1, st, .importF moduleName filePath content =>
    (match compileSrc content .exec filePath with
     | .error err => (st, .error (.syntaxError err))
     | .ok codeObj =>
       let attrs0 := alSet "__name__" moduleName []
       let attrs1 := if strStartsWith filePath "frozen" then attrs0
                     else alSet "__file__" filePath attrs0
       let module : Module := ⟨st.nextId, moduleName, attrs1⟩
       let st1 : VMSt :=
         { st with nextId := st.nextId + 1,
                   modules := alSet moduleName module st.modules,
                   execLog := st.execLog ++ [moduleName] }
       match interp f st1 (.runCode moduleName codeObj) with
       | (st2, .ok _) => (st2, .ok module)
       | (st2, .error e) => (st2, .error e))
  | _ + 1, st, .runCode _ [] => (st, .ok dummyModule)
  | f + 1, st, .runCode scopeName (stmt :: rest) =>
    (match stmt with
     | .setAttr a v =>
       interp f { st with modules := updateAttrs scopeName a v st.modules }
         (.runCode scopeName rest)
     | .raiseStmt msg => (st, .error (.runtime msg))
     | .importStmt n =>
       match interp f st (.importMod "" n) with
       | (st', .ok m) =>
         let observed := match alGet n st'.modules with
           | some mm => mm.attrs
           | none => m.attrs
         interp f { st' with importLog := st'.importLog ++ [(n, observed)] }
           (.runCode scopeName rest)
       | (st', .error e) => (st', .error e))

/-- import_module from import.rs, as the importMod task. -/
def import_module (fuel : Nat) (st : VMSt) (currentPath moduleName : String) :
    VMSt × Except PyErr Module :=
  interp fuel st (.importMod currentPath moduleName)

/-- import_frozen from import.rs, as the importFroz task. -/
def import_frozen (fuel : Nat) (st : VMSt) (moduleName : String) :
    VMSt × Except PyErr Module :=
  interp fuel st (.importFroz moduleName)

/-- import_file from import.rs, as the importF task. -/
def import_file (fuel : Nat) (st : VMSt) (moduleName filePath : String) (content : Source) :
    VMSt × Except PyErr Module :=
  interp fuel st (.importF moduleName filePath content)

/-- run_code_obj restricted to the loader-observable statements, as the
runCode task; its value is discarded. -/
def run_code_obj (fuel : Nat) (st : VMSt) (scopeName : String) (code : List Stmt) :
    VMSt × Except PyErr Unit :=
  let r := interp fuel st (.runCode scopeName code)
  (r.1, r.2.map fun _ => ())

/-! The interactive loop of src/main.rs (run_shell and shell_exec).  The
Single-mode compiler is an abstract parameter: on a given source text it
either yields a compiled unit — modelled directly by the unit's execution
behaviour, a runtime exception or an optional result value (none models the
None sentinel) — or fails in the distinguished incomplete-at-end-of-stream
way (CompileErrorType::Parse(ParseErrorType::EOF)), or fails otherwise. -/

/-- Result of the Single-mode compile service consumed by shell_exec. -/
inductive SingleCompileResult where
  | ok (run : Except String (Option Nat))
  | parseEof
  | otherErr (msg : String)
deriving DecidableEq

/-- The CompileError kinds shell_exec lets escape to its caller. -/
inductive ShellErr where
  | eofErr
  | otherErr (msg : String)
deriving DecidableEq

/-- The persistent interactive scope (only its globals dict is observable
here; the underscore convenience binding lives in it). -/
structure ShellScope where
  globals : List (String × Nat)
deriving DecidableEq

/-- shell_exec from main.rs: compile the source in Single mode; on success
run it, bind a non-None result value under the underscore name, print a
raised exception and return Ok; on the incomplete-at-end-of-stream parse
error return Err silently; on any other compile error print a syntax error
and return Err.  Printing is modelled by appending to an output log. -/
def shell_exec (c : String → SingleCompileResult) (source : String)
    (scope : ShellScope) (out : List String) :
    ShellScope × List String × Except ShellErr Unit :=
  match c source with
  | .ok run =>
    match run with
    | .ok (some v) => (⟨alSet "_" v scope.globals⟩, out, .ok ())
    | .ok none => (scope, out, .ok ())
    | .error e => (scope, out ++ ["Traceback: " ++ e], .ok ())
  | .parseEof => (scope, out, .error .eofErr)
  | .otherErr msg => (scope, out ++ ["SyntaxError: " ++ msg], .error (.otherErr msg))

/-- The interactive session state of run_shell: the accumulated input
buffer, the continuation flag, the history log, the persistent scope and
the printed output log. -/
structure ShellSt where
  input : String
  continuing : Bool
  history : List String
  scope : ShellScope
  out : List String
deriving DecidableEq

/-- One readline outcome, as matched in run_shell's loop. -/
inductive ReadEvent where
  | line (s : String)
  | interrupted
  | eofSignal
  | readErr (msg : String)
deriving DecidableEq

/-- Whether the loop continues with a new state or breaks out of it. -/
inductive ShellLoopOut where
  | next (st : ShellSt)
  | stop (st : ShellSt)
deriving DecidableEq

/-- One iteration of run_shell's loop from main.rs.  A read line is pushed
onto the buffer with a newline and recorded (trimmed at the end) in the
history before any state handling; in continuation mode a non-empty line
just accumulates, an empty line clears the flag and falls through to the
shell_exec attempt on the whole buffer; an incomplete-at-end-of-stream
result sets the flag and keeps the buffer, anything else clears the buffer.
An interrupt prints a marker, clears the flag and continues; end of input
stops the loop; a read error prints and stops. -/
def shell_step (c : String → SingleCompileResult) (st : ShellSt) (ev : ReadEvent) :
    ShellLoopOut :=
  match ev with
  | .line line =>
    let st1 : ShellSt := { st with input := st.input ++ line ++ "\n",
                                   history := st.history ++ [trimEnd line] }
    if st1.continuing ∧ line ≠ "" then .next st1
    else
      let st2 : ShellSt := { st1 with continuing := false }
      match shell_exec c st2.input st2.scope st2.out with
      | (scope', out', .error .eofErr) =>
        .next { st2 with scope := scope', out := out', continuing := true }
      | (scope', out', _) =>
        .next { st2 with scope := scope', out := out', input := "" }
  | .interrupted => .next { st with out := st.out ++ ["^C"], continuing := false }
  | .eofSignal => .stop st
  | .readErr msg => .stop { st with out := st.out ++ ["Error: " ++ msg] }

/-! Concrete scenario data used by closed conjuncts, counterexamples and
witnesses. -/

/-- An import-machine state with empty tables, to be extended per scenario. -/
def emptySt : VMSt :=
  { modules := [], frozen := [], stdlibInits := [], sysPath := [], fs := [],
    fsUnreadable := [], nextId := 0, execLog := [], importLog := [] }

/-- Mutual-import scenario: frozen module A sets x, imports B, then sets y;
frozen module B imports A. -/
def cycSt : VMSt :=
  { emptySt with frozen :=
      [("A", .src [.setAttr "x" "1", .importStmt "B", .setAttr "y" "2"]),
       ("B", .src [.importStmt "A"])] }

/-- Shadowing scenario: the name x is frozen and a file x.py also exists on
the search path, with a different body. -/
def shadowSt : VMSt :=
  { emptySt with frozen := [("x", .src [.setAttr "fromfrozen" "1"])],
                 sysPath := ["P"],
                 fs := [("cwd/x.py", .src [.setAttr "fromfile" "1"]),
                        ("P/x.py", .src [.setAttr "fromfile" "1"])] }

/-- One plain frozen module m that sets one attribute. -/
def oneModSt : VMSt :=
  { emptySt with frozen := [("m", .src [.setAttr "x" "1"])] }

/-- Path-ordering scenario: m.py exists in the current directory C and in
the second search-path entry P2, not in P1. -/
def pathOrdSt : VMSt :=
  { emptySt with sysPath := ["P1", "P2"],
                 fs := [("C/m.py", .src []), ("P2/m.py", .src [])] }

/-- Suffix-ordering scenario: both pkg.py and pkg/__init__.py exist in the
same search-path directory D. -/
def suffixOrdSt : VMSt :=
  { emptySt with sysPath := ["D"],
                 fs := [("D/pkg.py", .src []), ("D/pkg/__init__.py", .src [])] }

/-- Unreadable-file scenario: u.py exists in the current directory but
reading it fails. -/
def unreadableSt : VMSt :=
  { emptySt with fsUnreadable := ["cwd/u.py"] }

/-- Malformed-source scenario: b.py exists but does not compile. -/
def malformedSt : VMSt :=
  { emptySt with fs := [("cwd/b.py", .malformed "invalid syntax")] }

/-- Failing-body scenario: frozen module m sets x then raises. -/
def failBodySt : VMSt :=
  { emptySt with frozen := [("m", .src [.setAttr "x" "1", .raiseStmt "boom"])] }

/-- A real file whose resolved path happens to start with the word frozen
because the current directory is named frozenville. -/
def frozenvilleSt : VMSt :=
  { emptySt with fs := [("frozenville/m.py", .src [])] }

/-- A Single-mode compiler that always reports incomplete input. -/
def cEof : String → SingleCompileResult := fun _ => .parseEof

/-- A Single-mode compiler whose unit always evaluates to the value 2. -/
def cVal : String → SingleCompileResult := fun _ => .ok (.ok (some 2))

/-- A Single-mode compiler that always fails with a non-incomplete error. -/
def cSyn : String → SingleCompileResult := fun _ => .otherErr "bad token"

/-- A Single-mode compiler that agrees with cVal on every non-empty source
but not on the empty one: used to witness that a step consults the compiler
only on the appended buffer. -/
def cVal2 : String → SingleCompileResult :=
  fun s => if s = "" then .parseEof else .ok (.ok (some 2))

/-- An idle shell session with one entry in the output log. -/
def sIdle : ShellSt :=
  { input := "", continuing := false, history := [], scope := ⟨[]⟩, out := [] }

/-- A continuing shell session holding an incomplete block. -/
def sCont : ShellSt :=
  { input := "if True:\n    x = 1\n", continuing := true,
    history := ["if True:", "    x = 1"], scope := ⟨[]⟩, out := [] }

/-- The fresh module record import_file builds before executing the body:
next allocation id, the module name, and the namespace holding the name
attribute plus, when the path does not start with the word frozen, the file
attribute (exactly the attrs0 and attrs1 of the importF arm of interp). -/
def freshModule (st : VMSt) (n path : String) : Module :=
  ⟨st.nextId, n,
   if strStartsWith path "frozen" then alSet "__name__" n []
   else alSet "__file__" path (alSet "__name__" n [])⟩

/-- The state right after import_file publishes the fresh module in the
cache and logs the start of its body, before the body runs (exactly the st1
of the importF arm of interp). -/
def publishSt (st : VMSt) (n path : String) : VMSt :=
  { st with nextId := st.nextId + 1,
            modules := alSet n (freshModule st n path) st.modules,
            execLog := st.execLog ++ [n] }

/-- Cache entries survive a state transition with their identity intact:
every module registered before is still registered after, with the same id
(its attrs may have evolved). -/
def presMods (s t : List (String × Module)) : Prop :=
  ∀ k m, alGet k s = some m → ∃ m', alGet k t = some m' ∧ m'.id = m.id

/-- The precondition under which a task preserves cached identities: the
file- and frozen-loading tasks are only ever entered on a name that is not
yet cached (import_module checks the cache first). -/
def taskOk (st : VMSt) : Task → Prop
  | .importFroz n => alGet n st.modules = none
  | .importF n _ _ => alGet n st.modules = none
  | _ => True

/-! Lemmas: association lists, preservation, and the unfolding equations of
the interpreter. -/

theorem alGet_alSet_self {β : Type} (k : String) (v : β) (l : List (String × β)) :
    alGet k (alSet k v l) = some v := by
  induction l with
  | nil => simp [alGet, alSet]
  | cons hd tl ih =>
    by_cases h : hd.1 = k
    · simp [alGet, alSet, h]
    · simp [alGet, alSet, h, ih]

theorem alGet_alSet_ne {β : Type} {k k' : String} (h : k' ≠ k) (v : β)
    (l : List (String × β)) : alGet k (alSet k' v l) = alGet k l := by
  induction l with
  | nil => simp [alGet, alSet, h]
  | cons hd tl ih =>
    obtain ⟨k1, v1⟩ := hd
    by_cases h2 : k1 = k'
    · subst h2
      have hk : ¬ k1 = k := h
      simp [alGet, alSet, hk]
    · by_cases h3 : k1 = k
      · subst h3
        simp [alGet, alSet, h2]
      · simp [alGet, alSet, h2, h3, ih]

theorem alGet_updateAttrs (k sn a v : String) (mods : List (String × Module)) :
    alGet k (updateAttrs sn a v mods) =
      (alGet k mods).map fun m =>
        if k = sn then ⟨m.id, m.name, alSet a v m.attrs⟩ else m := by
  induction mods with
  | nil => simp [alGet, updateAttrs]
  | cons hd tl ih =>
    obtain ⟨k1, m1⟩ := hd
    simp only [updateAttrs, List.map] at ih ⊢
    by_cases hk : k1 = k
    · subst hk
      simp [alGet]
    · simp [alGet, hk, ih]

theorem presMods_refl (s : List (String × Module)) : presMods s s :=
  fun _ m h => ⟨m, h, rfl⟩

theorem presMods_trans {a b c : List (String × Module)}
    (h1 : presMods a b) (h2 : presMods b c) : presMods a c := by
  intro k m hk
  obtain ⟨m', hm', hid'⟩ := h1 k m hk
  obtain ⟨m'', hm'', hid''⟩ := h2 k m' hm'
  exact ⟨m'', hm'', hid''.trans hid'⟩

theorem presMods_alSet_fresh (n : String) (mod : Module)
    {s : List (String × Module)} (h : alGet n s = none) :
    presMods s (alSet n mod s) := by
  intro k m hk
  by_cases he : n = k
  · subst he
    rw [h] at hk
    exact absurd hk (by simp)
  · exact ⟨m, by rw [alGet_alSet_ne he]; exact hk, rfl⟩

theorem presMods_updateAttrs (sn a v : String) (s : List (String × Module)) :
    presMods s (updateAttrs sn a v s) := by
  intro k m hk
  rw [alGet_updateAttrs, hk]
  refine ⟨_, rfl, ?_⟩
  by_cases h : k = sn <;> simp [h]

theorem interp_zero (st : VMSt) (t : Task) :
    interp 0 st t = (st, .error .outOfFuel) := rfl

theorem interp_importMod (f : Nat) (st : VMSt) (cp n : String) :
    interp (f + 1) st (.importMod cp n) =
      (match alGet n st.modules with
       | some module => (st, .ok module)
       | none =>
         if (alGet n st.frozen).isSome then interp f st (.importFroz n)
         else if (alGet n st.stdlibInits).isSome then import_builtin st n
         else
           match find_source st cp n with
           | .error e => (st, .error (.moduleNotFound e))
           | .ok filePath =>
             match read_file st filePath with
             | .error e => (st, .error (.importError e))
             | .ok source => interp f st (.importF n filePath source)) := rfl

theorem interp_importFroz (f : Nat) (st : VMSt) (n : String) :
    interp (f + 1) st (.importFroz n) =
      (match alGet n st.frozen with
       | some frozenSrc => interp f st (.importF n ("frozen " ++ n) frozenSrc)
       | none => (st, .error (.importError ("Cannot import frozen module " ++ n)))) := rfl

theorem interp_importF (f : Nat) (st : VMSt) (n path : String) (content : Source) :
    interp (f + 1) st (.importF n path content) =
      (match compileSrc content .exec path with
       | .error err => (st, .error (.syntaxError err))
       | .ok codeObj =>
         match interp f (publishSt st n path) (.runCode n codeObj) with
         | (st2, .ok _) => (st2, .ok (freshModule st n path))
         | (st2, .error e) => (st2, .error e)) := rfl

theorem interp_runCode_nil (f : Nat) (st : VMSt) (sn : String) :
    interp (f + 1) st (.runCode sn []) = (st, .ok dummyModule) := rfl

theorem interp_runCode_cons (f : Nat) (st : VMSt) (sn : String) (stmt : Stmt)
    (rest : List Stmt) :
    interp (f + 1) st (.runCode sn (stmt :: rest)) =
      (match stmt with
       | .setAttr a v =>
         interp f { st with modules := updateAttrs sn a v st.modules }
           (.runCode sn rest)
       | .raiseStmt msg => (st, .error (.runtime msg))
       | .importStmt n =>
         match interp f st (.importMod "" n) with
         | (st', .ok m) =>
           let observed := match alGet n st'.modules with
             | some mm => mm.attrs
             | none => m.attrs
           interp f { st' with importLog := st'.importLog ++ [(n, observed)] }
             (.runCode sn rest)
         | (st', .error e) => (st', .error e)) := rfl

/-- The interpreter never removes a cached module and never changes a cached
module's identity, as long as the file- and frozen-load tasks are entered
only on uncached names (which import_module guarantees). -/
theorem interp_pres (f : Nat) : ∀ (st : VMSt) (t : Task), taskOk st t →
    presMods st.modules (interp f st t).1.modules := by
  induction f with
  | zero =>
    intro st t _
    rw [interp_zero]
    exact presMods_refl _
  | succ f ih =>
    intro st t ht
    cases t with
    | importMod cp n =>
      rw [interp_importMod]
      split
      · exact presMods_refl _
      next hg =>
        split
        next hf => exact ih st (.importFroz n) hg
        next hf =>
          split
          next hs =>
            simp only [import_builtin]
            split
            · exact presMods_alSet_fresh _ _ hg
            · exact presMods_refl _
          next hs =>
            split
            · exact presMods_refl _
            next p hfs =>
              split
              · exact presMods_refl _
              next src hrd => exact ih st (.importF n p src) hg
    | importFroz n =>
      rw [interp_importFroz]
      split
      next fsrc hfz => exact ih st (.importF n ("frozen " ++ n) fsrc) ht
      next => exact presMods_refl _
    | importF n path content =>
      rw [interp_importF]
      split
      · exact presMods_refl _
      next codeObj hc =>
        have h1 : presMods st.modules (publishSt st n path).modules :=
          presMods_alSet_fresh _ _ ht
        have h2 := ih (publishSt st n path) (.runCode n codeObj) trivial
        split
        next st2 mr hrun =>
          rw [hrun] at h2
          exact presMods_trans h1 h2
        next st2 e hrun =>
          rw [hrun] at h2
          exact presMods_trans h1 h2
    | runCode sn code =>
      cases code with
      | nil =>
        rw [interp_runCode_nil]
        exact presMods_refl _
      | cons stmt rest =>
        rw [interp_runCode_cons]
        split
        next a v =>
          exact presMods_trans (presMods_updateAttrs sn a v st.modules)
            (ih { st with modules := updateAttrs sn a v st.modules }
              (.runCode sn rest) trivial)
        · exact presMods_refl _
        next n =>
          have h1 := ih st (.importMod "" n) trivial
          split
          next st' m hrun =>
            rw [hrun] at h1
            exact presMods_trans h1
              (ih { st' with importLog := st'.importLog ++
                  [(n, match alGet n st'.modules with
                       | some mm => mm.attrs
                       | none => m.attrs)] }
                (.runCode sn rest) trivial)
          next st' e hrun =>
            rw [hrun] at h1
            exact h1

/-- After a successful import_file, the module name is cached with the
identity of the returned fresh module. -/
theorem importF_ok_registered {f : Nat} {st st' : VMSt} {n path : String}
    {content : Source} {m : Module}
    (h : interp f st (.importF n path content) = (st', .ok m)) :
    m = freshModule st n path ∧
    ∃ m', alGet n st'.modules = some m' ∧ m'.id = m.id := by
  cases f with
  | zero =>
    rw [interp_zero] at h
    exact absurd (congrArg Prod.snd h) (by simp)
  | succ f =>
    rw [interp_importF] at h
    split at h
    · exact absurd (congrArg Prod.snd h) (by simp)
    next codeObj hc =>
      have hpub : alGet n (publishSt st n path).modules = some (freshModule st n path) := by
        simp only [publishSt]
        exact alGet_alSet_self _ _ _
      have hpres := interp_pres f (publishSt st n path) (.runCode n codeObj) trivial
      split at h
      next st2 mr hrun =>
        have hst : st2 = st' := congrArg Prod.fst h
        have hm : freshModule st n path = m := by simpa using congrArg Prod.snd h
        subst hst
        subst hm
        rw [hrun] at hpres
        obtain ⟨m', hm', hid⟩ := hpres n _ hpub
        exact ⟨rfl, m', hm', hid⟩
      next st2 e hrun =>
        exact absurd (congrArg Prod.snd h) (by simp)

/-- After a successful import_module, the module name is cached with the
identity of the returned module. -/
theorem importMod_ok_registered {f : Nat} {st st' : VMSt} {cp n : String}
    {m : Module} (h : interp f st (.importMod cp n) = (st', .ok m)) :
    ∃ m', alGet n st'.modules = some m' ∧ m'.id = m.id := by
  cases f with
  | zero =>
    rw [interp_zero] at h
    exact absurd (congrArg Prod.snd h) (by simp)
  | succ f =>
    rw [interp_importMod] at h
    split at h
    next mc hg =>
      have hst : st = st' := congrArg Prod.fst h
      have hm : mc = m := by simpa using congrArg Prod.snd h
      subst hst
      subst hm
      exact ⟨mc, hg, rfl⟩
    next hg =>
      split at h
      next hf =>
        cases f with
        | zero =>
          rw [interp_zero] at h
          exact absurd (congrArg Prod.snd h) (by simp)
        | succ g =>
          rw [interp_importFroz] at h
          split at h
          next fsrc hfz => exact (importF_ok_registered h).2
          next => exact absurd (congrArg Prod.snd h) (by simp)
      next hf =>
        split at h
        next hs =>
          simp only [import_builtin] at h
          split at h
          next attrs hsl =>
            rw [Prod.mk.injEq] at h
            obtain ⟨hst, hm⟩ := h
            subst hst
            have hm2 : (⟨st.nextId, n, attrs⟩ : Module) = m := by simpa using hm
            refine ⟨⟨st.nextId, n, attrs⟩, ?_, by rw [← hm2]⟩
            exact alGet_alSet_self _ _ _
          next => exact absurd (congrArg Prod.snd h) (by simp)
        next hs =>
          split at h
          next e hfs => exact absurd (congrArg Prod.snd h) (by simp)
          next p hfs =>
            split at h
            next e hrd => exact absurd (congrArg Prod.snd h) (by simp)
            next src hrd => exact (importF_ok_registered h).2

/-- A cache hit returns the cached module immediately, with the whole state
(including both instrumentation logs) untouched. -/
theorem import_module_cache_hit (f : Nat) (st : VMSt) (cp n : String) (m : Module)
    (h : alGet n st.modules = some m) :
    import_module (f + 1) st cp n = (st, .ok m) := by
  rw [import_module, interp_importMod, h]

/-- find_source only ever fails with the no-module-named message holding the
requested dotted name verbatim. -/
theorem find_source_error_msg {st : VMSt} {cp n e : String}
    (h : find_source st cp n = .error e) :
    e = "No module named '" ++ n ++ "'" := by
  simp only [find_source] at h
  split at h
  · exact absurd h (by simp)
  · simpa using h.symm

/-- Accumulating pushes over a nested loop is binding the inner list. -/
theorem foldl_append_bind {α β : Type} (g : α → List β) :
    ∀ (l : List α) (acc : List β),
      l.foldl (fun a x => a ++ g x) acc = acc ++ l.flatMap g := by
  intro l
  induction l with
  | nil => intro acc; simp
  | cons hd tl ih => intro acc; simp [List.foldl, ih]

/-- The synthetic frozen label always starts with the word frozen. -/
theorem strStartsWith_frozen_label (n : String) :
    strStartsWith ("frozen " ++ n) "frozen" = true := by
  have hd : ("frozen " ++ n).data = 'f' :: 'r' :: 'o' :: 'z' :: 'e' :: 'n' :: ' ' :: n.data := by
    simp [String.data_append]
  simp [strStartsWith, hd, List.isPrefixOf]

/-! The claim theorems. -/

/-- C1.  Publish before execute: when the compiled body is obtained,
import_file registers the fresh module under its name (publishSt) and the
whole remaining computation is exactly the run of the body started from
that already-published state; consequently, in the mutual-import scenario
(A sets x, imports B, sets y; B imports A) the load of A succeeds, each body
starts exactly once, and B's body observes A with exactly the attributes A
had set before its import statement ran (the name attribute and x, not y). -/
theorem c1_publish_before_execute :
    (∀ (f : Nat) (st : VMSt) (n path : String) (content : Source) (body : List Stmt),
       compileSrc content .exec path = .ok body →
       alGet n (publishSt st n path).modules = some (freshModule st n path) ∧
       (publishSt st n path).execLog = st.execLog ++ [n] ∧
       import_file (f + 1) st n path content =
         (match interp f (publishSt st n path) (.runCode n body) with
          | (st2, .ok _) => (st2, .ok (freshModule st n path))
          | (st2, .error e) => (st2, .error e))) ∧
    ((import_module 20 cycSt "" "A").2 = .ok ⟨0, "A", [("__name__", "A")]⟩) ∧
    ((import_module 20 cycSt "" "A").1.execLog = ["A", "B"]) ∧
    ((import_module 20 cycSt "" "A").1.importLog =
       [("A", [("__name__", "A"), ("x", "1")]), ("B", [("__name__", "B")])]) := by
  refine ⟨?_, by decide, by decide, by decide⟩
  intro f st n path content body hc
  refine ⟨?_, rfl, ?_⟩
  · simp only [publishSt]
    exact alGet_alSet_self _ _ _
  · rw [import_file, interp_importF, hc]

/-- C1 witness: the general conjunct applied to a concrete empty-body load. -/
theorem c1_witness :
    alGet "m" (publishSt emptySt "m" "p.py").modules =
      some (freshModule emptySt "m" "p.py") ∧
    (publishSt emptySt "m" "p.py").execLog = emptySt.execLog ++ ["m"] ∧
    import_file 2 emptySt "m" "p.py" (.src []) =
      (match interp 1 (publishSt emptySt "m" "p.py") (.runCode "m" []) with
       | (st2, .ok _) => (st2, .ok (freshModule emptySt "m" "p.py"))
       | (st2, .error e) => (st2, .error e)) :=
  c1_publish_before_execute.1 1 emptySt "m" "p.py" (.src []) [] (by decide)

/-- C2.  Resolution precedence of import_module: cache first (returning the
cached module unchanged), then the frozen table, then the builtin table,
then the filesystem, short-circuiting at the first match; and concretely a
name in the frozen table shadows a same-named file on the search path. -/
theorem c2_resolution_precedence :
    (∀ (f : Nat) (st : VMSt) (cp n : String) (m : Module),
       alGet n st.modules = some m → import_module (f + 1) st cp n = (st, .ok m)) ∧
    (∀ (f : Nat) (st : VMSt) (cp n : String),
       alGet n st.modules = none → (alGet n st.frozen).isSome = true →
       import_module (f + 1) st cp n = import_frozen f st n) ∧
    (∀ (f : Nat) (st : VMSt) (cp n : String),
       alGet n st.modules = none → alGet n st.frozen = none →
       (alGet n st.stdlibInits).isSome = true →
       import_module (f + 1) st cp n = import_builtin st n) ∧
    (∀ (f : Nat) (st : VMSt) (cp n p : String) (src : Source),
       alGet n st.modules = none → alGet n st.frozen = none →
       alGet n st.stdlibInits = none → find_source st cp n = .ok p →
       read_file st p = .ok src →
       import_module (f + 1) st cp n = import_file f st n p src) ∧
    (alGet "x" (import_module 9 shadowSt "cwd" "x").1.modules =
       some ⟨0, "x", [("__name__", "x"), ("fromfrozen", "1")]⟩) := by
  refine ⟨?_, ?_, ?_, ?_, by decide⟩
  · intro f st cp n m h
    rw [import_module, interp_importMod, h]
  · intro f st cp n h1 h2
    rw [import_module, import_frozen, interp_importMod, h1]
    simp [h2]
  · intro f st cp n h1 h2 h3
    rw [import_module, interp_importMod, h1]
    simp [h2, h3]
  · intro f st cp n p src h1 h2 h3 h4 h5
    rw [import_module, import_file, interp_importMod, h1]
    simp [h2, h3, h4, h5]

/-- C2 witness: the four precedence conjuncts at concrete states. -/
theorem c2_witness :
    (import_module 1 (VMSt.mk [("m", ⟨7, "m", []⟩)] [] [] [] [] [] 8 [] [])
       "cwd" "m" =
       ((VMSt.mk [("m", ⟨7, "m", []⟩)] [] [] [] [] [] 8 [] []), .ok ⟨7, "m", []⟩)) ∧
    (import_module 9 shadowSt "cwd" "x" = import_frozen 8 shadowSt "x") ∧
    (import_module 1 (VMSt.mk [] [] [("b", [("bi", "1")])] [] [] [] 0 [] [])
       "cwd" "b" =
       import_builtin (VMSt.mk [] [] [("b", [("bi", "1")])] [] [] [] 0 [] []) "b") ∧
    (import_module 3 frozenvilleSt "frozenville" "m" =
       import_file 2 frozenvilleSt "m" "frozenville/m.py" (.src [])) :=
  ⟨c2_resolution_precedence.1 0 _ "cwd" "m" ⟨7, "m", []⟩ (by decide),
   c2_resolution_precedence.2.1 8 shadowSt "cwd" "x" (by decide) (by decide),
   c2_resolution_precedence.2.2.1 0 _ "cwd" "b" (by decide) (by decide) (by decide),
   c2_resolution_precedence.2.2.2.1 2 frozenvilleSt "frozenville" "m"
     "frozenville/m.py" (.src []) (by decide) (by decide) (by decide) (by decide)
     (by decide)⟩

/-- C3.  Identity idempotence: a cache hit returns the cached module with
the state (hence the execution log) untouched, even while the body is still
executing; and after any successful resolution the name is cached with the
same identity, so a second resolution returns that same instance and runs
nothing. -/
theorem c3_identity_idempotence :
    (∀ (f : Nat) (st : VMSt) (cp n : String) (m : Module),
       alGet n st.modules = some m → import_module (f + 1) st cp n = (st, .ok m)) ∧
    (∀ (f g : Nat) (st st' : VMSt) (cp cp' n : String) (m : Module),
       import_module f st cp n = (st', .ok m) →
       ∃ m', alGet n st'.modules = some m' ∧ m'.id = m.id ∧
         import_module (g + 1) st' cp' n = (st', .ok m')) := by
  constructor
  · intro f st cp n m h
    exact import_module_cache_hit f st cp n m h
  · intro f g st st' cp cp' n m h
    rw [import_module] at h
    obtain ⟨m', hm', hid⟩ := importMod_ok_registered h
    exact ⟨m', hm', hid, import_module_cache_hit g st' cp' n m' hm'⟩

/-- C3 witness: both conjuncts at a concrete one-module state. -/
theorem c3_witness :
    (import_module 1 (VMSt.mk [("m", ⟨7, "m", []⟩)] [] [] [] [] [] 8 [] [])
       "cwd" "m" =
       ((VMSt.mk [("m", ⟨7, "m", []⟩)] [] [] [] [] [] 8 [] []), .ok ⟨7, "m", []⟩)) ∧
    (∃ m', alGet "m" (import_module 5 oneModSt "" "m").1.modules = some m' ∧
       m'.id = (Module.mk 0 "m" [("__name__", "m")]).id ∧
       import_module 1 (import_module 5 oneModSt "" "m").1 "" "m" =
         ((import_module 5 oneModSt "" "m").1, .ok m')) :=
  ⟨c3_identity_idempotence.1 0 _ "cwd" "m" ⟨7, "m", []⟩ (by decide),
   c3_identity_idempotence.2 5 0 oneModSt (import_module 5 oneModSt "" "m").1
     "" "" "m" ⟨0, "m", [("__name__", "m")]⟩ (by decide)⟩

/-- C5.  Error classification: with all three tables missing the name, a
failed filesystem search yields ModuleNotFound whose message carries the
requested dotted name verbatim; an existing but unreadable chosen file
yields ImportError; a file whose source does not compile yields a
SyntaxError value; and these kinds are pairwise distinct constructors. -/
theorem c5_error_classification :
    (∀ (f : Nat) (st : VMSt) (cp n e : String),
       alGet n st.modules = none → alGet n st.frozen = none →
       alGet n st.stdlibInits = none → find_source st cp n = .error e →
       import_module (f + 1) st cp n = (st, .error (.moduleNotFound e)) ∧
         e = "No module named '" ++ n ++ "'") ∧
    (∀ (f : Nat) (st : VMSt) (cp n p ioe : String),
       alGet n st.modules = none → alGet n st.frozen = none →
       alGet n st.stdlibInits = none → find_source st cp n = .ok p →
       read_file st p = .error ioe →
       import_module (f + 1) st cp n = (st, .error (.importError ioe))) ∧
    (∀ (f : Nat) (st : VMSt) (cp n p ce : String) (src : Source),
       alGet n st.modules = none → alGet n st.frozen = none →
       alGet n st.stdlibInits = none → find_source st cp n = .ok p →
       read_file st p = .ok src → compileSrc src .exec p = .error ce →
       import_module (f + 2) st cp n = (st, .error (.syntaxError ce))) ∧
    (∀ (m1 m2 m3 : String),
       PyErr.moduleNotFound m1 ≠ PyErr.importError m2 ∧
       PyErr.syntaxError m3 ≠ PyErr.importError m2) := by
  refine ⟨?_, ?_, ?_, by intro m1 m2 m3; exact ⟨by simp, by simp⟩⟩
  · intro f st cp n e h1 h2 h3 h4
    refine ⟨?_, find_source_error_msg h4⟩
    rw [import_module, interp_importMod, h1]
    simp [h2, h3, h4]
  · intro f st cp n p ioe h1 h2 h3 h4 h5
    rw [import_module, interp_importMod, h1]
    simp [h2, h3, h4, h5]
  · intro f st cp n p ce src h1 h2 h3 h4 h5 h6
    rw [import_module, interp_importMod, h1]
    simp [h2, h3, h4, h5, interp_importF, h6]

/-- C5 witness: the three failure classes at concrete states. -/
theorem c5_witness :
    (import_module 1 emptySt "cwd" "nope.sub" =
       (emptySt, .error (.moduleNotFound "No module named 'nope.sub'")) ∧
       "No module named 'nope.sub'" = "No module named '" ++ "nope.sub" ++ "'") ∧
    (import_module 1 unreadableSt "cwd" "u" =
       (unreadableSt, .error (.importError "could not read cwd/u.py"))) ∧
    (import_module 2 malformedSt "cwd" "b" =
       (malformedSt, .error (.syntaxError "invalid syntax"))) :=
  ⟨c5_error_classification.1 0 emptySt "cwd" "nope.sub"
     "No module named 'nope.sub'" (by decide) (by decide) (by decide) (by decide),
   c5_error_classification.2.1 0 unreadableSt "cwd" "u" "cwd/u.py"
     "could not read cwd/u.py" (by decide) (by decide) (by decide) (by decide)
     (by decide),
   c5_error_classification.2.2.1 0 malformedSt "cwd" "b" "cwd/b.py"
     "invalid syntax" (.malformed "invalid syntax") (by decide) (by decide)
     (by decide) (by decide) (by decide) (by decide)⟩

/-- C6.  No rollback on failed execution: when the body of a frozen module
raises, the error propagates out of import_module while the part-way
populated module stays registered with its identity, and a subsequent
resolution returns that same cached module instead of retrying the load. -/
theorem c6_no_rollback_on_failed_execution :
    ∀ (f g : Nat) (st : VMSt) (cp cp' n : String) (fsrc : Source)
      (body : List Stmt) (e : PyErr) (st2 : VMSt),
      alGet n st.modules = none →
      alGet n st.frozen = some fsrc →
      compileSrc fsrc .exec ("frozen " ++ n) = .ok body →
      run_code_obj f (publishSt st n ("frozen " ++ n)) n body = (st2, .error e) →
      import_module (f + 3) st cp n = (st2, .error e) ∧
      ∃ m', alGet n st2.modules = some m' ∧ m'.id = st.nextId ∧
        import_module (g + 1) st2 cp' n = (st2, .ok m') := by
  intro f g st cp cp' n fsrc body e st2 h1 h2 h3 h4
  have hrun : interp f (publishSt st n ("frozen " ++ n)) (.runCode n body) =
      (st2, .error e) := by
    rw [run_code_obj] at h4
    cases hr : interp f (publishSt st n ("frozen " ++ n)) (.runCode n body) with
    | mk s r =>
      rw [hr] at h4
      cases r with
      | ok m =>
        exact absurd (congrArg Prod.snd h4) (by simp [Except.map])
      | error e' =>
        have hs : s = st2 := congrArg Prod.fst h4
        have he : e' = e := by
          have := congrArg Prod.snd h4
          simpa [Except.map] using this
        rw [hs, he]
  have hmain : import_module (f + 3) st cp n = (st2, .error e) := by
    rw [import_module, interp_importMod, h1]
    simp only [h2, Option.isSome_some, if_true, interp_importFroz,
      interp_importF, h3, hrun]
  refine ⟨hmain, ?_⟩
  have hpres := interp_pres f (publishSt st n ("frozen " ++ n)) (.runCode n body) trivial
  rw [hrun] at hpres
  have hpub : alGet n (publishSt st n ("frozen " ++ n)).modules =
      some (freshModule st n ("frozen " ++ n)) := by
    simp only [publishSt]
    exact alGet_alSet_self _ _ _
  obtain ⟨m', hm', hid⟩ := hpres n _ hpub
  exact ⟨m', hm', hid, import_module_cache_hit g st2 cp' n m' hm'⟩

/-- C6 witness: a frozen module that sets x then raises; the failed state
keeps the module cached and a later import returns it. -/
theorem c6_witness :
    import_module 5 failBodySt "" "m" =
      ((run_code_obj 2 (publishSt failBodySt "m" ("frozen " ++ "m")) "m"
          [.setAttr "x" "1", .raiseStmt "boom"]).1,
       .error (.runtime "boom")) ∧
    ∃ m', alGet "m" (run_code_obj 2 (publishSt failBodySt "m" ("frozen " ++ "m")) "m"
          [.setAttr "x" "1", .raiseStmt "boom"]).1.modules = some m' ∧
      m'.id = failBodySt.nextId ∧
      import_module 1 (run_code_obj 2 (publishSt failBodySt "m" ("frozen " ++ "m")) "m"
          [.setAttr "x" "1", .raiseStmt "boom"]).1 "" "m" =
        ((run_code_obj 2 (publishSt failBodySt "m" ("frozen " ++ "m")) "m"
            [.setAttr "x" "1", .raiseStmt "boom"]).1, .ok m') :=
  c6_no_rollback_on_failed_execution 2 0 failBodySt "" "" "m"
    (.src [.setAttr "x" "1", .raiseStmt "boom"])
    [.setAttr "x" "1", .raiseStmt "boom"] (.runtime "boom")
    (run_code_obj 2 (publishSt failBodySt "m" ("frozen " ++ "m")) "m"
      [.setAttr "x" "1", .raiseStmt "boom"]).1
    (by decide) (by decide) (by decide) (by decide)

/-- C9 counterexample: a module loaded from a real file whose resolved path
is frozenville/m.py — not the synthetic label "frozen m" — still gets no
file attribute, because the code tests only the prefix of the path; the
claim's if-and-only-if predicts the attribute would be present. -/
theorem c9_counterexample :
    (import_module 3 frozenvilleSt "frozenville" "m").2 =
      .ok ⟨0, "m", [("__name__", "m")]⟩ ∧
    ¬ ("frozenville/m.py" = "frozen " ++ "m") ∧
    ¬ ((alGet "__file__" (Module.mk 0 "m" [("__name__", "m")]).attrs).isSome = true ↔
       ¬ ("frozenville/m.py" = "frozen " ++ "m")) := by
  refine ⟨by decide, by decide, ?_⟩
  intro hiff
  have h2 : ¬ ("frozenville/m.py" = "frozen " ++ "m") := by decide
  have h3 : (alGet "__file__" (Module.mk 0 "m" [("__name__", "m")]).attrs).isSome = true :=
    hiff.mpr h2
  exact absurd h3 (by decide)

/-- C9 (amended).  Module namespace setup: the fresh namespace of every
module loaded from source binds the name attribute to the module name, and
binds the file attribute to the resolved path exactly when the path does
not start with the word frozen (the code tests the prefix, not the full
synthetic frozen label). -/
theorem c9_namespace_setup_amended :
    ∀ (f : Nat) (st st' : VMSt) (n path : String) (content : Source) (m : Module),
      import_file f st n path content = (st', .ok m) →
      alGet "__name__" m.attrs = some n ∧
      (strStartsWith path "frozen" = true → alGet "__file__" m.attrs = none) ∧
      (strStartsWith path "frozen" = false → alGet "__file__" m.attrs = some path) := by
  intro f st st' n path content m h
  rw [import_file] at h
  obtain ⟨hm, -⟩ := importF_ok_registered h
  subst hm
  simp only [freshModule]
  cases hb : strStartsWith path "frozen" with
  | true =>
    refine ⟨?_, fun _ => ?_, fun hf => absurd hf (by simp)⟩
    · simp [alGet, alSet]
    · simp [alGet, alSet]
  | false =>
    refine ⟨?_, fun ht => absurd ht (by simp), fun _ => ?_⟩
    · simp [alGet, alSet]
    · simp [alGet, alSet]

/-- C9 witness: a non-frozen path gets the file attribute, the synthetic
frozen label does not. -/
theorem c9_witness :
    (alGet "__name__" (Module.mk 0 "m" [("__name__", "m"), ("__file__", "p.py")]).attrs =
       some "m" ∧
     (strStartsWith "p.py" "frozen" = true →
       alGet "__file__" (Module.mk 0 "m" [("__name__", "m"), ("__file__", "p.py")]).attrs =
         none) ∧
     (strStartsWith "p.py" "frozen" = false →
       alGet "__file__" (Module.mk 0 "m" [("__name__", "m"), ("__file__", "p.py")]).attrs =
         some "p.py")) :=
  c9_namespace_setup_amended 2 emptySt
    (import_file 2 emptySt "m" "p.py" (.src [])).1 "m" "p.py" (.src [])
    ⟨0, "m", [("__name__", "m"), ("__file__", "p.py")]⟩ (by decide)

/-- C4.  Filesystem search order: find_source tries, over the candidate
directories current-path-then-search-path, the dotted-to-slash name with
suffix .py then /__init__.py, in that exact flattened order, and the first
existing candidate wins; concretely the current directory beats a later
search-path entry, and pkg.py beats pkg/__init__.py in the same directory. -/
theorem c4_filesystem_search_order :
    (∀ (st : VMSt) (cp n : String),
       find_source st cp n =
         (match ((cp :: st.sysPath).flatMap fun d =>
             [pjoin d (dotsToSlashes n ++ ".py"),
              pjoin d (dotsToSlashes n ++ "/__init__.py")]).find?
             (fun p => existsFile st p) with
          | some p => .ok p
          | none => .error ("No module named '" ++ n ++ "'"))) ∧
    (find_source pathOrdSt "C" "m" = .ok "C/m.py") ∧
    (find_source suffixOrdSt "cwd" "pkg" = .ok "D/pkg.py") := by
  refine ⟨?_, by decide, by decide⟩
  intro st cp n
  simp only [find_source]
  rw [foldl_append_bind]
  simp only [List.map_cons, List.map_nil, List.nil_append]

/-- The outcome of one line of run_shell depends on the Single-mode compile
service only through its verdict on the buffer with the line appended. -/
theorem shell_step_compile_congr (c1 c2 : String → SingleCompileResult)
    (st : ShellSt) (l : String)
    (h : c1 (st.input ++ l ++ "\n") = c2 (st.input ++ l ++ "\n")) :
    shell_step c1 st (.line l) = shell_step c2 st (.line l) := by
  simp only [shell_step]
  by_cases hcond : st.continuing = true ∧ ¬ (l = "")
  · rw [if_pos hcond, if_pos hcond]
  · rw [if_neg hcond, if_neg hcond]
    have hse : shell_exec c1 (st.input ++ l ++ "\n") st.scope st.out =
        shell_exec c2 (st.input ++ l ++ "\n") st.scope st.out := by
      rw [shell_exec, shell_exec, h]
    rw [hse]

/-- C7.  The continuation state machine of the interactive loop: in the
idle state an incomplete-at-end-of-stream verdict keeps the appended buffer,
raises the continuation flag and prints nothing; any other verdict runs the
shared attempt procedure, clears the buffer and stays idle; in the
continuing state a non-empty line only accumulates, and an empty line drops
the flag and performs exactly the idle-state attempt on the accumulated
buffer. -/
theorem c7_continuation_state_machine :
    (∀ (c : String → SingleCompileResult) (st : ShellSt) (l : String),
       st.continuing = false →
       c (st.input ++ l ++ "\n") = .parseEof →
       shell_step c st (.line l) =
         .next { st with input := st.input ++ l ++ "\n",
                         history := st.history ++ [trimEnd l],
                         continuing := true }) ∧
    (∀ (c : String → SingleCompileResult) (st : ShellSt) (l : String),
       st.continuing = false →
       c (st.input ++ l ++ "\n") ≠ .parseEof →
       shell_step c st (.line l) =
         .next { st with input := "",
                         history := st.history ++ [trimEnd l],
                         continuing := false,
                         scope := (shell_exec c (st.input ++ l ++ "\n") st.scope st.out).1,
                         out := (shell_exec c (st.input ++ l ++ "\n") st.scope st.out).2.1 }) ∧
    (∀ (c : String → SingleCompileResult) (st : ShellSt) (l : String),
       st.continuing = true → l ≠ "" →
       shell_step c st (.line l) =
         .next { st with input := st.input ++ l ++ "\n",
                         history := st.history ++ [trimEnd l] }) ∧
    (∀ (c : String → SingleCompileResult) (st : ShellSt),
       st.continuing = true →
       shell_step c st (.line "") =
         shell_step c { st with continuing := false } (.line "")) := by
  refine ⟨?_, ?_, ?_, ?_⟩
  · intro c st l h1 h2
    simp [shell_step, h1, shell_exec, h2]
  · intro c st l h1 h2
    cases hc : c (st.input ++ l ++ "\n") with
    | ok run =>
      cases run with
      | ok v =>
        cases v with
        | some x => simp [shell_step, h1, shell_exec, hc]
        | none => simp [shell_step, h1, shell_exec, hc]
      | error e => simp [shell_step, h1, shell_exec, hc]
    | parseEof => exact absurd hc h2
    | otherErr msg => simp [shell_step, h1, shell_exec, hc]
  · intro c st l h1 h2
    simp [shell_step, h1, h2]
  · intro c st h1
    simp [shell_step]

/-- C7 witness: all four transitions at concrete sessions and compilers. -/
theorem c7_witness :
    (shell_step cEof sIdle (.line "if True:") =
       .next { sIdle with input := sIdle.input ++ "if True:" ++ "\n",
                          history := sIdle.history ++ [trimEnd "if True:"],
                          continuing := true }) ∧
    (shell_step cVal sIdle (.line "1 + 1") =
       .next { sIdle with input := "",
                          history := sIdle.history ++ [trimEnd "1 + 1"],
                          continuing := false,
                          scope := (shell_exec cVal (sIdle.input ++ "1 + 1" ++ "\n")
                            sIdle.scope sIdle.out).1,
                          out := (shell_exec cVal (sIdle.input ++ "1 + 1" ++ "\n")
                            sIdle.scope sIdle.out).2.1 }) ∧
    (shell_step cEof sCont (.line "    y = 2") =
       .next { sCont with input := sCont.input ++ "    y = 2" ++ "\n",
                          history := sCont.history ++ [trimEnd "    y = 2"] }) ∧
    (shell_step cVal sCont (.line "") =
       shell_step cVal { sCont with continuing := false } (.line "")) :=
  ⟨c7_continuation_state_machine.1 cEof sIdle "if True:" (by decide) (by decide),
   c7_continuation_state_machine.2.1 cVal sIdle "1 + 1" (by decide) (by decide),
   c7_continuation_state_machine.2.2.1 cEof sCont "    y = 2" (by decide) (by decide),
   c7_continuation_state_machine.2.2.2 cVal sCont (by decide)⟩

/-- C8 counterexample: an interrupt in a continuing session keeps the
accumulated buffer — the next state's input is the old two-line block, not
empty — so the claim that the buffer is discarded is false on this input. -/
theorem c8_counterexample :
    shell_step cEof sCont .interrupted =
      .next { sCont with out := sCont.out ++ ["^C"], continuing := false } ∧
    ({ sCont with out := sCont.out ++ ["^C"], continuing := false } : ShellSt).input =
      "if True:\n    x = 1\n" ∧
    ¬ ("if True:\n    x = 1\n" = "") := by
  refine ⟨rfl, rfl, by decide⟩

/-- C8 (amended).  An interrupt signal resets the session to the idle
state, emits the interrupt notice, and continues the loop without
terminating the session — but it retains the accumulated input buffer
(the source does not clear it). -/
theorem c8_interrupt_amended :
    ∀ (c : String → SingleCompileResult) (st : ShellSt),
      shell_step c st .interrupted =
        .next { st with out := st.out ++ ["^C"], continuing := false } := by
  intro c st
  rfl

/-- C10.  Every read line is appended to the buffer with a newline and
recorded trimmed in the history before any state handling; the compile
attempt, when one happens, sees exactly the appended buffer (the step
depends on the compiler only through its verdict there); and for the empty
completeness line of a continuing block the compiled text is the buffer
plus one more newline, hence ends in a blank line. -/
theorem c10_line_buffering :
    (∀ (c : String → SingleCompileResult) (st : ShellSt) (l : String),
       ∃ st', shell_step c st (.line l) = .next st' ∧
         st'.history = st.history ++ [trimEnd l]) ∧
    (∀ (c1 c2 : String → SingleCompileResult) (st : ShellSt) (l : String),
       c1 (st.input ++ l ++ "\n") = c2 (st.input ++ l ++ "\n") →
       shell_step c1 st (.line l) = shell_step c2 st (.line l)) ∧
    (∀ (c1 c2 : String → SingleCompileResult) (st : ShellSt) (p : String),
       st.continuing = true → st.input = p ++ "\n" →
       c1 (p ++ "\n\n") = c2 (p ++ "\n\n") →
       shell_step c1 st (.line "") = shell_step c2 st (.line "")) ∧
    (∀ (c : String → SingleCompileResult) (st : ShellSt) (l : String),
       st.continuing = true → l ≠ "" →
       ∃ st', shell_step c st (.line l) = .next st' ∧
         st'.input = st.input ++ l ++ "\n") := by
  refine ⟨?_, ?_, ?_, ?_⟩
  · intro c st l
    simp only [shell_step]
    split
    · exact ⟨_, rfl, by simp⟩
    · split
      next heq => exact ⟨_, rfl, by simp⟩
      next heq => exact ⟨_, rfl, by simp⟩
  · intro c1 c2 st l h
    exact shell_step_compile_congr c1 c2 st l h
  · intro c1 c2 st p h1 h2 h3
    refine shell_step_compile_congr c1 c2 st "" ?_
    have ht : st.input ++ "" ++ "\n" = p ++ "\n\n" := by
      rw [h2]
      have : ("\n" : String) ++ "\n" = "\n\n" := rfl
      rw [String.append_empty, String.append_assoc, this]
    rw [ht]
    exact h3
  · intro c st l h1 h2
    refine ⟨{ st with input := st.input ++ l ++ "\n", history := st.history ++ [trimEnd l] }, ?_, rfl⟩
    simp [shell_step, h1, h2]

/-- C10 witness: the four conjuncts at concrete sessions; the two
compile-dependence conjuncts use two different compilers that agree on the
appended buffer. -/
theorem c10_witness :
    (∃ st', shell_step cVal sIdle (.line "1 + 1") = .next st' ∧
       st'.history = sIdle.history ++ [trimEnd "1 + 1"]) ∧
    (shell_step cVal sIdle (.line "1 + 1") = shell_step cVal2 sIdle (.line "1 + 1")) ∧
    (shell_step cVal sCont (.line "") = shell_step cVal2 sCont (.line "")) ∧
    (∃ st', shell_step cEof sCont (.line "    z = 3") = .next st' ∧
       st'.input = sCont.input ++ "    z = 3" ++ "\n") :=
  ⟨c10_line_buffering.1 cVal sIdle "1 + 1",
   c10_line_buffering.2.1 cVal cVal2 sIdle "1 + 1" (by decide),
   c10_line_buffering.2.2.1 cVal cVal2 sCont "if True:\n    x = 1" (by decide)
     (by decide) (by decide),
   c10_line_buffering.2.2.2 cEof sCont "    z = 3" (by decide) (by decide)⟩

end RPy

